import Mathlib

/-!
Verification of the compound-interest calculator core
(`streamlit_compound_calculator.py`).

The computational core of the repository is:
* the rate conversion `taxa_mensal = (1 + taxa_anual/100) ** (1/12) - 1`;
* the simulation loop over `range(meses+1)` building the lists
  `saldos`, `aportes`, `ganhos`, `cdi_ref` while updating the running
  balances `saldo` and `saldo_cdi`;
* the reverse solver `PMT` with its `i > 0` branch and the degenerate
  `i == 0` branch, followed by the sign test on `PMT` that selects which
  of the two result messages is shown.

We embed the loop literally as a fold over `List.range (meses+1)` with an
explicit state record, over an arbitrary linear ordered field (instantiated
at `ℚ` for executable checks and at `ℝ` when the real 12-th root of the
rate conversion is involved).  Exact field arithmetic stands in for IEEE
doubles: the properties proved here are the exact-arithmetic contents of
the specification.
-/

namespace CompoundCalc

/-- State of the simulation loop of `streamlit_compound_calculator.py`
(lines 92-103): the four accumulated columns and the two running
balances. -/
structure LoopState (K : Type) where
  saldos : List K
  aportes : List K
  ganhos : List K
  cdi_ref : List K
  saldo : K
  saldo_cdi : K

/-- One iteration of the `for m in range(meses+1)` loop (lines 96-103):
append the current values to the four lists, then, only when `m < meses`,
advance both balances by one month of compounding plus the contribution. -/
def loopBody {K : Type} [LinearOrderedField K]
    (valor_inicial aporte_mensal taxa_mensal cdi_mensal : K) (meses : ℕ)
    (s : LoopState K) (m : ℕ) : LoopState K :=
  let s1 : LoopState K :=
    { saldos := s.saldos ++ [s.saldo]
      aportes := s.aportes ++ [valor_inicial + aporte_mensal * (m : K)]
      ganhos := s.ganhos ++ [s.saldo - (valor_inicial + aporte_mensal * (m : K))]
      cdi_ref := s.cdi_ref ++ [s.saldo_cdi]
      saldo := s.saldo
      saldo_cdi := s.saldo_cdi }
  if m < meses then
    { s1 with
      saldo := s1.saldo * (1 + taxa_mensal) + aporte_mensal
      saldo_cdi := s1.saldo_cdi * (1 + cdi_mensal) + aporte_mensal }
  else s1

/-- The whole simulation (lines 92-103): start from empty lists and both
balances equal to `valor_inicial`, then fold the loop body over
`range(meses+1)`. -/
def runSim {K : Type} [LinearOrderedField K]
    (valor_inicial aporte_mensal taxa_mensal cdi_mensal : K) (meses : ℕ) :
    LoopState K :=
  (List.range (meses + 1)).foldl
    (loopBody valor_inicial aporte_mensal taxa_mensal cdi_mensal meses)
    { saldos := [], aportes := [], ganhos := [], cdi_ref := [],
      saldo := valor_inicial, saldo_cdi := valor_inicial }

/-- The running balance in closed recursive form: `saldo` after `m` loop
updates, i.e. the value appended to `saldos` at month `m` (line 102). -/
def saldo {K : Type} [LinearOrderedField K]
    (valor_inicial aporte_mensal taxa_mensal : K) : ℕ → K
  | 0 => valor_inicial
  | m + 1 =>
      saldo valor_inicial aporte_mensal taxa_mensal m * (1 + taxa_mensal)
        + aporte_mensal

/-- The annuity divisor `((1+i)**n - 1)/i` of line 154. -/
def annuityFactor {K : Type} [LinearOrderedField K] (i : K) (n : ℕ) : K :=
  ((1 + i) ^ n - 1) / i

/-- The reverse solver (lines 153-156): required monthly contribution for
target `FV`, initial capital `P`, monthly rate `i`, horizon `n` months. -/
def PMT {K : Type} [LinearOrderedField K] (FV P i : K) (n : ℕ) : K :=
  if 0 < i then (FV - P * (1 + i) ^ n) / annuityFactor i n
  else (FV - P) / (n : K)

/-- The three visibly distinct outcomes of the reverse-calculator section
(lines 147-166): nothing requested (`meta_final ≤ 0`), the
already-feasible message (`PMT < 0`), or the required contribution. -/
inductive ReverseOutcome (K : Type) where
  | notRequested : ReverseOutcome K
  | feasibleWithoutAdditionalContribution : ReverseOutcome K
  | requiredContribution : K → ReverseOutcome K
deriving DecidableEq

/-- The reverse-calculator control flow (lines 147-166): compute only when
`meta_final > 0`; on `PMT < 0` report the already-feasible outcome without
the negative value, otherwise report the computed contribution. -/
def reverseDisplay {K : Type} [LinearOrderedField K]
    (meta_final valor_inicial taxa_mensal : K) (meses : ℕ) :
    ReverseOutcome K :=
  if 0 < meta_final then
    if PMT meta_final valor_inicial taxa_mensal meses < 0 then
      ReverseOutcome.feasibleWithoutAdditionalContribution
    else
      ReverseOutcome.requiredContribution
        (PMT meta_final valor_inicial taxa_mensal meses)
  else ReverseOutcome.notRequested

/-- The rate conversion of lines 89-90:
`taxa_mensal = (1 + taxa_anual/100) ** (1/12) - 1`, over the reals. -/
noncomputable def taxa_mensal (taxa_anual : ℝ) : ℝ :=
  (1 + taxa_anual / 100) ^ ((1 : ℝ) / 12) - 1

/-! ### Characterisation of the loop -/

/-- After folding the loop body over `range k` for `k ≤ meses`, the four
lists hold the first `k` months and both balances have been updated `k`
times. -/
lemma foldl_range_spec {K : Type} [LinearOrderedField K]
    (P A i c : K) (meses k : ℕ) (hk : k ≤ meses) :
    (List.range k).foldl (loopBody P A i c meses)
      { saldos := [], aportes := [], ganhos := [], cdi_ref := [],
        saldo := P, saldo_cdi := P } =
    { saldos := (List.range k).map (saldo P A i)
      aportes := (List.range k).map (fun m : ℕ => P + A * (m : K))
      ganhos := (List.range k).map (fun m => saldo P A i m - (P + A * (m : K)))
      cdi_ref := (List.range k).map (saldo P A c)
      saldo := saldo P A i k
      saldo_cdi := saldo P A c k } := by
  induction k with
  | zero => simp [saldo]
  | succ k ih =>
      have hk1 : k ≤ meses := Nat.le_of_succ_le hk
      have hklt : k < meses := Nat.lt_of_succ_le hk
      rw [List.range_succ, List.foldl_append, ih hk1]
      simp only [List.foldl_cons, List.foldl_nil, loopBody, hklt, if_pos]
      simp [List.range_succ, saldo]

/-- The final state of the simulation: each column is the corresponding
map over `range (meses+1)`, and the running balances end at month
`meses`. -/
lemma runSim_eq {K : Type} [LinearOrderedField K]
    (P A i c : K) (meses : ℕ) :
    runSim P A i c meses =
    { saldos := (List.range (meses + 1)).map (saldo P A i)
      aportes := (List.range (meses + 1)).map (fun m : ℕ => P + A * (m : K))
      ganhos := (List.range (meses + 1)).map
        (fun m => saldo P A i m - (P + A * (m : K)))
      cdi_ref := (List.range (meses + 1)).map (saldo P A c)
      saldo := saldo P A i meses
      saldo_cdi := saldo P A c meses } := by
  unfold runSim
  rw [List.range_succ, List.foldl_append,
    foldl_range_spec P A i c meses meses le_rfl]
  simp only [List.foldl_cons, List.foldl_nil, loopBody, lt_irrefl, if_neg,
    not_false_iff]
  simp [List.range_succ]

lemma saldos_getElem {K : Type} [LinearOrderedField K]
    (P A i c : K) (meses m : ℕ) (hm : m ≤ meses) :
    (runSim P A i c meses).saldos[m]? = some (saldo P A i m) := by
  rw [runSim_eq]
  rw [List.getElem?_map, List.getElem?_range (Nat.lt_succ_of_le hm)]
  rfl

lemma cdi_getElem {K : Type} [LinearOrderedField K]
    (P A i c : K) (meses m : ℕ) (hm : m ≤ meses) :
    (runSim P A i c meses).cdi_ref[m]? = some (saldo P A c m) := by
  rw [runSim_eq]
  rw [List.getElem?_map, List.getElem?_range (Nat.lt_succ_of_le hm)]
  rfl

lemma aportes_getElem {K : Type} [LinearOrderedField K]
    (P A i c : K) (meses m : ℕ) (hm : m ≤ meses) :
    (runSim P A i c meses).aportes[m]? = some (P + A * (m : K)) := by
  rw [runSim_eq]
  rw [List.getElem?_map, List.getElem?_range (Nat.lt_succ_of_le hm)]
  rfl

lemma ganhos_getElem {K : Type} [LinearOrderedField K]
    (P A i c : K) (meses m : ℕ) (hm : m ≤ meses) :
    (runSim P A i c meses).ganhos[m]? =
      some (saldo P A i m - (P + A * (m : K))) := by
  rw [runSim_eq]
  rw [List.getElem?_map, List.getElem?_range (Nat.lt_succ_of_le hm)]
  rfl

/-! ### Arithmetic facts about the balance recurrence -/

/-- Closed form of the balance: the future-value annuity formula. -/
lemma saldo_closed {K : Type} [LinearOrderedField K]
    (P A i : K) (hi : i ≠ 0) (n : ℕ) :
    saldo P A i n = P * (1 + i) ^ n + A * annuityFactor i n := by
  induction n with
  | zero => simp [saldo, annuityFactor]
  | succ n ih =>
      rw [saldo, ih, annuityFactor, annuityFactor]
      field_simp
      ring

lemma saldo_zero_rate {K : Type} [LinearOrderedField K]
    (P A : K) (n : ℕ) :
    saldo P A 0 n = P + A * (n : K) := by
  induction n with
  | zero => simp [saldo]
  | succ n ih => rw [saldo, ih]; push_cast; ring

lemma saldo_nonneg {K : Type} [LinearOrderedField K]
    (P A i : K) (hP : 0 ≤ P) (hA : 0 ≤ A) (hi : 0 ≤ i) (n : ℕ) :
    0 ≤ saldo P A i n := by
  induction n with
  | zero => simpa [saldo] using hP
  | succ n ih =>
      rw [saldo]
      have h1 : (0 : K) ≤ 1 + i := by linarith
      positivity

lemma saldo_le_succ {K : Type} [LinearOrderedField K]
    (P A i : K) (hP : 0 ≤ P) (hA : 0 ≤ A) (hi : 0 ≤ i) (n : ℕ) :
    saldo P A i n ≤ saldo P A i (n + 1) := by
  have h0 : 0 ≤ saldo P A i n := saldo_nonneg P A i hP hA hi n
  rw [saldo]
  nlinarith

lemma annuityFactor_pos {K : Type} [LinearOrderedField K]
    (i : K) (n : ℕ) (hi : 0 < i) (hn : 1 ≤ n) :
    0 < annuityFactor i n := by
  have h1 : (1 : K) < 1 + i := by linarith
  have h2 : (1 : K) < (1 + i) ^ n := one_lt_pow₀ h1 (by omega)
  exact div_pos (by linarith) hi

lemma taxa_mensal_zero : taxa_mensal 0 = 0 := by
  simp [taxa_mensal]

lemma saldos_length {K : Type} [LinearOrderedField K]
    (P A i c : K) (meses : ℕ) :
    (runSim P A i c meses).saldos.length = meses + 1 := by
  rw [runSim_eq]; simp

lemma saldos_getLast {K : Type} [LinearOrderedField K]
    (P A i c : K) (meses : ℕ) :
    (runSim P A i c meses).saldos.getLast? = some (saldo P A i meses) := by
  rw [runSim_eq]
  rw [List.range_succ, List.map_append]
  simp

/-- Exact inversion: feeding the month-`n` balance back into the solver
recovers the contribution. -/
lemma PMT_saldo {K : Type} [LinearOrderedField K]
    (P A i : K) (n : ℕ) (hi : 0 ≤ i) (hn : 1 ≤ n) :
    PMT (saldo P A i n) P i n = A := by
  rcases hi.lt_or_eq with hpos | hzero
  · rw [PMT, if_pos hpos, saldo_closed P A i (ne_of_gt hpos) n]
    have hf : annuityFactor i n ≠ 0 := ne_of_gt (annuityFactor_pos i n hpos hn)
    have h1 : P * (1 + i) ^ n + A * annuityFactor i n - P * (1 + i) ^ n
        = A * annuityFactor i n := by ring
    rw [h1, mul_div_assoc, div_self hf, mul_one]
  · rw [PMT, if_neg (by rw [← hzero]; exact lt_irrefl 0), ← hzero,
      saldo_zero_rate]
    have hn0 : (n : K) ≠ 0 := Nat.cast_ne_zero.mpr (by omega)
    field_simp

/-! ### The claims -/

/-- C1: for every valid scenario (non-negative capital, contribution and
periodic rates, horizon of at least one month) the simulation emits exactly
`meses + 1` points, the month-0 balance is the initial capital with no
contribution applied, each balance follows the compound recurrence
`balance(m+1) = balance(m)*(1+i) + A`, and the benchmark balance follows
the identical recurrence at the benchmark rate. -/
theorem C1_projection_series (P A i c : ℚ) (meses : ℕ)
    (hP : 0 ≤ P) (hA : 0 ≤ A) (hi : 0 ≤ i) (hc : 0 ≤ c) (hm : 1 ≤ meses) :
    (runSim P A i c meses).saldos.length = meses + 1 ∧
    (runSim P A i c meses).aportes.length = meses + 1 ∧
    (runSim P A i c meses).ganhos.length = meses + 1 ∧
    (runSim P A i c meses).cdi_ref.length = meses + 1 ∧
    (runSim P A i c meses).saldos[0]? = some P ∧
    (runSim P A i c meses).cdi_ref[0]? = some P ∧
    (∀ m, m < meses →
      (runSim P A i c meses).saldos[m + 1]? =
        Option.map (fun b => b * (1 + i) + A)
          (runSim P A i c meses).saldos[m]?) ∧
    (∀ m, m < meses →
      (runSim P A i c meses).cdi_ref[m + 1]? =
        Option.map (fun b => b * (1 + c) + A)
          (runSim P A i c meses).cdi_ref[m]?) := by
  refine ⟨?_, ?_, ?_, ?_, ?_, ?_, ?_, ?_⟩
  · rw [runSim_eq]; simp
  · rw [runSim_eq]; simp
  · rw [runSim_eq]; simp
  · rw [runSim_eq]; simp
  · rw [saldos_getElem P A i c meses 0 (Nat.zero_le _)]; rfl
  · rw [cdi_getElem P A i c meses 0 (Nat.zero_le _)]; rfl
  · intro m hmlt
    rw [saldos_getElem P A i c meses (m + 1) hmlt,
      saldos_getElem P A i c meses m (le_of_lt hmlt)]
    rfl
  · intro m hmlt
    rw [cdi_getElem P A i c meses (m + 1) hmlt,
      cdi_getElem P A i c meses m (le_of_lt hmlt)]
    rfl

theorem C1_projection_series_witness :
    (runSim (1000 : ℚ) 100 (1/100) (2/100) 2).saldos.length = 2 + 1 ∧
    (runSim (1000 : ℚ) 100 (1/100) (2/100) 2).aportes.length = 2 + 1 ∧
    (runSim (1000 : ℚ) 100 (1/100) (2/100) 2).ganhos.length = 2 + 1 ∧
    (runSim (1000 : ℚ) 100 (1/100) (2/100) 2).cdi_ref.length = 2 + 1 ∧
    (runSim (1000 : ℚ) 100 (1/100) (2/100) 2).saldos[0]? = some 1000 ∧
    (runSim (1000 : ℚ) 100 (1/100) (2/100) 2).cdi_ref[0]? = some 1000 ∧
    (∀ m, m < 2 →
      (runSim (1000 : ℚ) 100 (1/100) (2/100) 2).saldos[m + 1]? =
        Option.map (fun b => b * (1 + 1/100) + 100)
          (runSim (1000 : ℚ) 100 (1/100) (2/100) 2).saldos[m]?) ∧
    (∀ m, m < 2 →
      (runSim (1000 : ℚ) 100 (1/100) (2/100) 2).cdi_ref[m + 1]? =
        Option.map (fun b => b * (1 + 2/100) + 100)
          (runSim (1000 : ℚ) 100 (1/100) (2/100) 2).cdi_ref[m]?) :=
  C1_projection_series 1000 100 (1/100) (2/100) 2 (by norm_num) (by norm_num)
    (by norm_num) (by norm_num) (by norm_num)

/-- C2: the reverse solver returns
`(FV - P*(1+i)^n) / (((1+i)^n - 1)/i)` when `i > 0` and `(FV - P)/n` when
`i = 0`; in each case the divisor actually used is non-zero, so the
zero-rate branch prevents any division by zero. -/
theorem C2_reverse_solver (FV P i : ℚ) (n : ℕ) (hi : 0 ≤ i) (hn : 1 ≤ n) :
    (0 < i →
      PMT FV P i n = (FV - P * (1 + i) ^ n) / (((1 + i) ^ n - 1) / i) ∧
      ((1 + i) ^ n - 1) / i ≠ 0) ∧
    (i = 0 → PMT FV P i n = (FV - P) / (n : ℚ) ∧ (n : ℚ) ≠ 0) := by
  constructor
  · intro hpos
    constructor
    · rw [PMT, if_pos hpos]; rfl
    · exact ne_of_gt (annuityFactor_pos i n hpos hn)
  · intro hzero
    subst hzero
    exact ⟨by rw [PMT, if_neg (lt_irrefl 0)],
      Nat.cast_ne_zero.mpr (by omega)⟩

theorem C2_reverse_solver_witness :
    ((0 : ℚ) < 0 →
      PMT (2200 : ℚ) 1000 0 12 =
        (2200 - 1000 * (1 + 0) ^ 12) / (((1 + 0) ^ 12 - 1) / 0) ∧
      (((1 : ℚ) + 0) ^ 12 - 1) / 0 ≠ 0) ∧
    ((0 : ℚ) = 0 →
      PMT (2200 : ℚ) 1000 0 12 = (2200 - 1000) / (12 : ℚ) ∧
      ((12 : ℕ) : ℚ) ≠ 0) :=
  C2_reverse_solver 2200 1000 0 12 le_rfl (by norm_num)

/-- C3: at every month the cumulative contribution is
`initialCapital + monthlyContribution * month` and the gain is exactly the
balance minus the cumulative contribution, both derived from the running
balance. -/
theorem C3_gain_invariant (P A i c : ℚ) (meses : ℕ)
    (hP : 0 ≤ P) (hA : 0 ≤ A) (hi : 0 ≤ i) (hc : 0 ≤ c) (hm : 1 ≤ meses) :
    ∀ m, m ≤ meses →
      (runSim P A i c meses).aportes[m]? = some (P + A * (m : ℚ)) ∧
      (runSim P A i c meses).ganhos[m]? =
        Option.map (fun b => b - (P + A * (m : ℚ)))
          (runSim P A i c meses).saldos[m]? := by
  intro m hmle
  refine ⟨aportes_getElem P A i c meses m hmle, ?_⟩
  rw [ganhos_getElem P A i c meses m hmle,
    saldos_getElem P A i c meses m hmle]
  rfl

theorem C3_gain_invariant_witness :
    (runSim (1000 : ℚ) 100 (1/100) (2/100) 2).aportes[1]? =
      some (1000 + 100 * ((1 : ℕ) : ℚ)) ∧
    (runSim (1000 : ℚ) 100 (1/100) (2/100) 2).ganhos[1]? =
      Option.map (fun b => b - (1000 + 100 * ((1 : ℕ) : ℚ)))
        (runSim (1000 : ℚ) 100 (1/100) (2/100) 2).saldos[1]? :=
  C3_gain_invariant 1000 100 (1/100) (2/100) 2 (by norm_num) (by norm_num)
    (by norm_num) (by norm_num) (by norm_num) 1 (by norm_num)

/-- C4: the rate converter returns `(1 + annual/100)^(1/12) - 1`
(true monthly-equivalent compounding), and a zero annual rate yields a
zero periodic rate. -/
theorem C4_rate_conversion (a : ℝ) (ha : 0 ≤ a) :
    taxa_mensal a = (1 + a / 100) ^ ((1 : ℝ) / 12) - 1 ∧
    (a = 0 → taxa_mensal a = 0) :=
  ⟨rfl, fun h => by rw [h]; exact taxa_mensal_zero⟩

theorem C4_rate_conversion_witness :
    taxa_mensal 0 = (1 + (0 : ℝ) / 100) ^ ((1 : ℝ) / 12) - 1 ∧
    ((0 : ℝ) = 0 → taxa_mensal 0 = 0) :=
  C4_rate_conversion 0 le_rfl

/-- C5: when the target is requested and the computed contribution is
negative, the reverse calculator reports the distinct already-feasible
outcome, and never the negative contribution value. -/
theorem C5_negative_pmt (meta_final P i : ℚ) (n : ℕ)
    (hmeta : 0 < meta_final) (hneg : PMT meta_final P i n < 0) :
    reverseDisplay meta_final P i n =
      ReverseOutcome.feasibleWithoutAdditionalContribution ∧
    ∀ x : ℚ, reverseDisplay meta_final P i n ≠
      ReverseOutcome.requiredContribution x := by
  rw [reverseDisplay, if_pos hmeta, if_pos hneg]
  exact ⟨rfl, fun x h => ReverseOutcome.noConfusion h⟩

theorem C5_negative_pmt_witness :
    reverseDisplay (1 : ℚ) 1000 0 12 =
      ReverseOutcome.feasibleWithoutAdditionalContribution ∧
    ∀ x : ℚ, reverseDisplay (1 : ℚ) 1000 0 12 ≠
      ReverseOutcome.requiredContribution x :=
  C5_negative_pmt 1 1000 0 12 (by norm_num)
    (by rw [PMT, if_neg (lt_irrefl (0 : ℚ))]; norm_num)

/-- C6: round trip — the final balance of a simulation run, fed back into
the reverse solver with the same capital, rate and horizon, recovers the
original monthly contribution exactly. -/
theorem C6_round_trip (P A i c : ℚ) (meses : ℕ) (hi : 0 ≤ i)
    (hm : 1 ≤ meses) :
    ∀ b, (runSim P A i c meses).saldos.getLast? = some b →
      PMT b P i meses = A := by
  intro b hb
  rw [saldos_getLast P A i c meses] at hb
  rw [← Option.some_inj.mp hb]
  exact PMT_saldo P A i meses hi hm

theorem C6_round_trip_witness : PMT (2200 : ℚ) 1000 0 12 = 100 :=
  C6_round_trip 1000 100 0 0 12 le_rfl (by norm_num) 2200
    (by rw [saldos_getLast, saldo_zero_rate]; norm_num)

/-- C7: with non-negative contribution, rate and initial capital, the
balance column of the series is non-decreasing month over month. -/
theorem C7_monotone (P A i c : ℚ) (meses : ℕ)
    (hP : 0 ≤ P) (hA : 0 ≤ A) (hi : 0 ≤ i) :
    ∀ m, m < meses → ∀ b b2,
      (runSim P A i c meses).saldos[m]? = some b →
      (runSim P A i c meses).saldos[m + 1]? = some b2 →
      b ≤ b2 := by
  intro m hmlt b b2 hb hb2
  rw [saldos_getElem P A i c meses m (le_of_lt hmlt)] at hb
  rw [saldos_getElem P A i c meses (m + 1) hmlt] at hb2
  rw [← Option.some_inj.mp hb, ← Option.some_inj.mp hb2]
  exact saldo_le_succ P A i hP hA hi m

theorem C7_monotone_witness : (1300 : ℚ) ≤ 1400 :=
  C7_monotone 1000 100 0 0 12 (by norm_num) (by norm_num) (by norm_num)
    3 (by norm_num) 1300 1400
    (by rw [saldos_getElem 1000 100 0 0 12 3 (by norm_num), saldo_zero_rate]
        norm_num)
    (by rw [saldos_getElem 1000 100 0 0 12 4 (by norm_num), saldo_zero_rate]
        norm_num)

/-- C8: with a zero annual rate the converted periodic rate is zero and
every balance of the series equals
`initialCapital + monthlyContribution * month`. -/
theorem C8_zero_rate (P A c : ℝ) (taxa_anual : ℝ) (ha : taxa_anual = 0)
    (meses m : ℕ) (hm : m ≤ meses) :
    (runSim P A (taxa_mensal taxa_anual) c meses).saldos[m]? =
      some (P + A * (m : ℝ)) := by
  rw [ha, taxa_mensal_zero,
    saldos_getElem P A 0 c meses m hm, saldo_zero_rate]

theorem C8_zero_rate_witness :
    (runSim (5 : ℝ) 2 (taxa_mensal 0) 0 3).saldos[2]? =
      some (5 + 2 * ((2 : ℕ) : ℝ)) :=
  C8_zero_rate 5 2 0 0 rfl 3 2 (by norm_num)

/-- C9 (counterexample to the claim as stated): on an input with negative
initial capital, contribution and rates the engine still performs the full
computation and emits a complete series — it does not fail with an
InvalidParameter error. -/
theorem C9_counterexample :
    (runSim (-1 : ℚ) (-2) (-1) (-1) 12).saldos.length = 13 ∧
    (runSim (-1 : ℚ) (-2) (-1) (-1) 12).saldos[0]? = some (-1 : ℚ) := by
  constructor
  · rw [runSim_eq]; simp
  · rw [saldos_getElem (-1) (-2) (-1) (-1) 12 0 (Nat.zero_le _)]; rfl

/-- C9 (amended): the engine performs no input validation at all — even
for negative capital, contribution or rate it computes a full series of
`meses + 1` points starting at the given capital; invalid values are kept
out only by the input widgets, not by an engine-side InvalidParameter
error. -/
theorem C9_no_validation (P A i c : ℚ) (meses : ℕ)
    (hinvalid : P < 0 ∨ A < 0 ∨ i < 0) :
    (runSim P A i c meses).saldos.length = meses + 1 ∧
    (runSim P A i c meses).saldos[0]? = some P := by
  constructor
  · rw [runSim_eq]; simp
  · rw [saldos_getElem P A i c meses 0 (Nat.zero_le _)]; rfl

theorem C9_no_validation_witness :
    (runSim (-1 : ℚ) 0 0 0 12).saldos.length = 12 + 1 ∧
    (runSim (-1 : ℚ) 0 0 0 12).saldos[0]? = some (-1 : ℚ) :=
  C9_no_validation (-1) 0 0 0 12 (Or.inl (by norm_num))

/-- C10: for a strictly positive periodic rate and a horizon of at least
one month, the divisor `((1+i)^n - 1)/i` of the positive-rate branch is
strictly positive, so that branch never divides by zero. -/
theorem C10_divisor_positive (i : ℚ) (n : ℕ) (hi : 0 < i) (hn : 1 ≤ n) :
    0 < annuityFactor i n :=
  annuityFactor_pos i n hi hn

theorem C10_divisor_positive_witness :
    (0 : ℚ) < 1 ∧ 1 ≤ 1 ∧ 0 < annuityFactor (1 : ℚ) 1 :=
  ⟨by norm_num, le_rfl, C10_divisor_positive 1 1 (by norm_num) le_rfl⟩

end CompoundCalc
